import Mathlib

/-!
Verification of the OlympiQ chart-rendering pipeline.

The development shallowly embeds the two chart components of the repository
(`MedalLineChart` and `GDPStreamGraph`, both in
`src/frontend/src/charts/MedalLineChart.jsx`): the data records fetched from
the backend, the filter state driven by the UI controls, the transform step
(filter + pivot for the line chart, group + d3-stack for the stream graph),
the layout/stacking step (including d3's `stackOffsetWiggle` and
`stackOrderInsideOut`, modelled exactly over ℚ), and the render step
(full-replace drawing into an SVG surface).

JavaScript numbers are modelled as `Int` (years, medal counts) and `ℚ`
(GDP values and stacked bounds); `undefined`/missing values as `Option`.
-/

namespace OlympiQ

/-- JS `Array.from(new Set(l))`: deduplicate keeping the first occurrence of
each element, preserving first-seen order.  `seen` accumulates elements
already emitted. -/
def firstSeenAux {α : Type} [DecidableEq α] (seen : List α) : List α → List α
  | [] => []
  | c :: rest =>
    if c ∈ seen then firstSeenAux seen rest
    else c :: firstSeenAux (c :: seen) rest

/-! ## Medal line chart: data model and Transformer -/

/-- One row of the medals dataset returned by `useGetMedalsQuery`. -/
structure MedalRecord where
  Year : Int
  Country : String
  Gold : Int
  Silver : Int
  Bronze : Int
deriving DecidableEq, Repr

/-- One pivoted row produced by the line-chart transform effect
(`MedalLineChart.jsx` lines 29–34): `{ name: d.Country, Gold: d.Gold, ... }`. -/
structure SeriesPoint where
  name : String
  Gold : Int
  Silver : Int
  Bronze : Int
deriving DecidableEq, Repr

/-- The metric keys fixed by the component (`uniqueKeys`, line 23). -/
def uniqueKeys : List String := ["Gold", "Silver", "Bronze"]

/-- The filtered subset of the line-chart effect (lines 22–27): filter to the
selected year, then, when the applied country list is non-empty, filter to
those countries. -/
def filteredSubset (records : List MedalRecord) (selectedYear : Int)
    (appliedCountries : List String) : List MedalRecord :=
  let yearData := records.filter (fun d => d.Year == selectedYear)
  if appliedCountries.length > 0 then
    yearData.filter (fun d => appliedCountries.contains d.Country)
  else yearData

/-- The line-chart transform (lines 22–34): filter, then pivot each remaining
row into one `SeriesPoint`. -/
def transform (records : List MedalRecord) (selectedYear : Int)
    (appliedCountries : List String) : List SeriesPoint :=
  (filteredSubset records selectedYear appliedCountries).map
    (fun d => { name := d.Country, Gold := d.Gold, Silver := d.Silver,
                Bronze := d.Bronze })

/-- The year-only pipeline with the country-filter stage omitted entirely:
the spec's "no country filter at all" baseline against which the empty
selection is compared. -/
def transformNoCountryFilter (records : List MedalRecord)
    (selectedYear : Int) : List SeriesPoint :=
  (records.filter (fun d => d.Year == selectedYear)).map
    (fun d => { name := d.Country, Gold := d.Gold, Silver := d.Silver,
                Bronze := d.Bronze })

/-! ## Medal line chart: Renderer -/

/-- Abstract contents of the `#d3-chart` SVG: the per-series `path` elements
(identified by the series name bound to them), the per-metric axes, and the
legend entries. -/
structure ChartSvg where
  paths : List String
  axes : List String
  legend : List String
deriving DecidableEq, Repr

/-- The SVG built by the draw effect when it runs (lines 70–137): one path per
series point, drawn in ascending order of the `Gold` metric (line 82, a stable
sort), one axis group per metric key (lines 89–96), and one legend item per
unique country name keeping first occurrences (line 120). -/
def drawLineChart (data : List SeriesPoint) (keys : List String) : ChartSvg :=
  { paths := (data.mergeSort (fun a b => decide (a.Gold ≤ b.Gold))).map
      (fun d => d.name)
    axes := keys
    legend := firstSeenAux [] (data.map (fun d => d.name)) }

/-- The draw effect (lines 41–138) as a transition on the drawing surface
(`none` = empty `#d3-chart` container): when the filtered data or the key
list is empty it returns early (line 42) leaving the surface untouched;
otherwise it replaces the whole surface (`html("")`, lines 70–71) with a
freshly drawn chart. -/
def renderLineChartEffect (filteredData : List SeriesPoint)
    (keys : List String) (surface : Option ChartSvg) : Option ChartSvg :=
  if filteredData.length = 0 ∨ keys.length = 0 then surface
  else some (drawLineChart filteredData keys)

/-! ## Medal line chart: Controls / FilterState -/

/-- The component's filter state: `selectedYear` (`null` before data loads),
the staged multi-selection `selectedCountries`, and the committed
`appliedCountries` that drives the transform effect. -/
structure ChartState where
  selectedYear : Option Int
  selectedCountries : List String
  appliedCountries : List String
deriving DecidableEq, Repr

/-- The year selector's `onChange` handler (lines 156–159): set the year and
reset the applied country filter to empty. -/
def changeYear (s : ChartState) (y : Int) : ChartState :=
  { s with selectedYear := some y, appliedCountries := [] }

/-- The staged multi-select `onChange` handler (line 175): replace the staged
selection only. -/
def editStaged (s : ChartState) (cs : List String) : ChartState :=
  { s with selectedCountries := cs }

/-- The Apply button handler (line 183): commit the staged selection. -/
def applyStaged (s : ChartState) : ChartState :=
  { s with appliedCountries := s.selectedCountries }

/-- The transform effect (lines 20–39) as a function of the fetched data and
the state: it runs only when `medalsData && selectedYear` is truthy (an
absent year, or the falsy year `0`, skips it, returning `none` = no update to
`filteredData`). -/
def lineChartUpdate (medalsData : Option (List MedalRecord))
    (s : ChartState) : Option (List SeriesPoint) :=
  match medalsData, s.selectedYear with
  | some data, some y =>
    if y = 0 then none else some (transform data y s.appliedCountries)
  | _, _ => none

/-! ## Loading / error gating -/

/-- Result shape of the RTK-Query hooks: `{ data, isLoading, isError }`. -/
structure QueryResult (α : Type) where
  data : Option α
  isLoading : Bool
  isError : Bool
deriving DecidableEq, Repr

/-- What the component returns: either just a short text message, or the full
page whose chart area holds the drawn surface. -/
inductive View where
  | message (text : String)
  | chartPage (surface : Option ChartSvg)
deriving DecidableEq, Repr

/-- Whether a view contains any chart content (axes, paths or legend). -/
def View.hasChartContent : View → Bool
  | .message _ => false
  | .chartPage s => s.isSome

/-- The chart content derived from the fetched data and the filter state by
the component's effects (transform, lines 20–39, then draw, lines 41–138,
starting from an empty container). -/
def medalPipeline (data : List MedalRecord) (s : ChartState) :
    Option ChartSvg :=
  match lineChartUpdate (some data) s with
  | some fd => renderLineChartEffect fd uniqueKeys none
  | none => none

/-- The `MedalLineChart` component body (lines 140–193): loading and error
checks come first and replace the whole output with a text message; only
otherwise is the page with the chart area returned. -/
def medalChartView (q : QueryResult (List MedalRecord)) (s : ChartState) :
    View :=
  if q.isLoading then .message "Loading..."
  else if q.isError then .message "Failed to load data."
  else .chartPage (medalPipeline (q.data.getD []) s)

/-! ## GDP stream graph: data model and grouping -/

/-- One row of the GDP dataset returned by `useGetAllGDPPerCapitaQuery`; the
raw `"GDP per capita"` field may be missing or non-numeric (`none`). -/
structure GDPRecord where
  Year : Int
  Country : String
  gdp : Option ℚ
deriving DecidableEq, Repr

/-- One parsed row (`GDPStreamGraph`, lines 218–222): the year (the code wraps
it in a `Date`, an injective mapping we keep as the integer year), the
country, and `+d["GDP per capita"] || 0` which coerces a missing value
to `0`. -/
structure ParsedGDP where
  year : Int
  country : String
  gdpPerCapita : ℚ
deriving DecidableEq, Repr

/-- The parsing map of lines 218–222. -/
def gdpParse (raw : List GDPRecord) : List ParsedGDP :=
  raw.map (fun d =>
    { year := d.Year, country := d.Country, gdpPerCapita := d.gdp.getD 0 })

/-- The stack's value accessor (line 240):
`countryData.get(key)?.gdpPerCapita || 0` over the `d3.index` of the parsed
rows by year then country.  For key sets without duplicate `(year, country)`
pairs (`d3.index` raises on duplicates) this is the first matching row's
value, defaulting to `0` when the country has no row for that year. -/
def lookupVal (parsed : List ParsedGDP) (y : Int) (c : String) : ℚ :=
  match parsed.find? (fun r => r.year == y && r.country == c) with
  | some r => r.gdpPerCapita
  | none => 0

/-- The country universe of the stream graph (line 232): the selected
countries when any are selected, otherwise the first 10 distinct countries in
first-seen order of the raw feed
(`Array.from(new Set(parsedData.map(d => d.country))).slice(0, 10)`). -/
def streamCountries (parsed : List ParsedGDP)
    (selectedCountries : List String) : List String :=
  if selectedCountries.length > 0 then selectedCountries
  else (firstSeenAux [] (parsed.map (fun d => d.country))).take 10

/-- The rows of the stacked data: `d3.index` iterates its groups in insertion
order, i.e. one row per distinct year in first-seen order of the parsed
feed. -/
def stackYears (parsed : List ParsedGDP) : List Int :=
  firstSeenAux [] (parsed.map (fun d => d.year))

/-- The value matrix fed to `d3.stack`: one row per key (country), one entry
per year row. -/
def streamValues (parsed : List ParsedGDP) (sel : List String) :
    List (List ℚ) :=
  (streamCountries parsed sel).map
    (fun c => (stackYears parsed).map (fun y => lookupVal parsed y c))

/-! ## GDP stream graph: d3.stack with inside-out order and wiggle offset

The implementations below are translated from d3-shape's
`order/insideOut.js`, `order/appearance.js`, `order/ascending.js` (`sum`),
`offset/wiggle.js` and `offset/none.js`, specialised to exact rationals. -/

/-- The index of a series' peak: d3-shape `appearance.js` `peak` — the first
index holding the maximum value (`>` against a running maximum starting at
`-Infinity`, here `none`). -/
def peakIdxGo : Nat → Nat → Option ℚ → List ℚ → Nat
  | j, _, _, [] => j
  | j, i, best, v :: rest =>
    if (match best with | none => true | some b => decide (b < v)) then
      peakIdxGo i (i + 1) (some v) rest
    else peakIdxGo j (i + 1) best rest

/-- Peak index of a value row (empty row gives index 0, as in d3). -/
def peakIdx (l : List ℚ) : Nat := peakIdxGo 0 0 none l

/-- The loop of `insideOut.js`: walk the appearance order, greedily pushing
each series onto whichever of the top/bottom stacks currently has the smaller
total, and return `bottoms.reverse() ++ tops`. -/
def insideOutGo (sums : List ℚ) :
    List Nat → ℚ → ℚ → List Nat → List Nat → List Nat
  | [], _, _, tops, bottoms => bottoms.reverse ++ tops
  | j :: rest, top, bottom, tops, bottoms =>
    let s := sums.getD j 0
    if top < bottom then
      insideOutGo sums rest (top + s) bottom (tops ++ [j]) bottoms
    else insideOutGo sums rest top (bottom + s) tops (bottoms ++ [j])

/-- `d3.stackOrderInsideOut` on the value matrix: series indices sorted
stably by peak index (`appearance`), then distributed inside-out by total
magnitude. -/
def stackOrderInsideOut (vals : List (List ℚ)) : List Nat :=
  let sums := vals.map (fun s => s.sum)
  let peaks := vals.map peakIdx
  let order := (List.range vals.length).mergeSort
    (fun a b => decide (peaks.getD a 0 ≤ peaks.getD b 0))
  insideOutGo sums order 0 0 [] []

/-- The inner accumulation of `wiggle.js` at one year step: for each ordered
series with value `v` and value difference `d` against the previous year,
add `(Σ earlier differences + d / 2) * v`; the first component accumulates
`s2`, the running `acc` the earlier differences. -/
def wiggleS2Go : ℚ → List (ℚ × ℚ) → ℚ
  | _, [] => 0
  | acc, (d, v) :: rest => (acc + d / 2) * v + wiggleS2Go (acc + d) rest

/-- The outer loop of `wiggle.js` from the second year on: each year's
baseline is the previous baseline, shifted by `- s2 / s1` when the year's
total `s1` is non-zero. -/
def baselinesGo : List ℚ → ℚ → List (List ℚ) → List ℚ
  | _, _, [] => []
  | prevCol, y, col :: rest =>
    let s1 := col.sum
    let s2 := wiggleS2Go 0 (List.zipWith (fun c p => (c - p, c)) col prevCol)
    let y2 := if s1 = 0 then y else y - s2 / s1
    y2 :: baselinesGo col y2 rest

/-- The per-year baselines computed by `wiggle.js` over the value columns
(year-indexed lists of ordered series values); the first year's baseline is
the initial `y = 0`. -/
def baselines : List (List ℚ) → List ℚ
  | [] => []
  | c0 :: rest => 0 :: baselinesGo c0 0 rest

/-- The value columns of the ordered rows: entry `j` lists each ordered
series' value at year `j`. -/
def colsOf (rows : List (List ℚ)) (m : Nat) : List (List ℚ) :=
  (List.range m).map (fun j => rows.map (fun r => r.getD j 0))

/-- `offset/none.js`: each subsequent series' band starts at the previous
series' upper bound (`s1[j][0] = s0[j][1]; s1[j][1] += s1[j][0]`). -/
def stackNoneGo : List (ℚ × ℚ) → List (List ℚ) → List (List (ℚ × ℚ))
  | _, [] => []
  | prev, row :: rest =>
    let cur := List.zipWith (fun p v => (p.2, p.2 + v)) prev row
    cur :: stackNoneGo cur rest

/-- `offset/wiggle.js` on the rows already arranged in stack order: compute
the per-year baselines, place the first ordered series at
`[baseline, baseline + value]`, then stack the remaining series with the
`none` offset.  `m` is the number of year rows. -/
def stackWiggle (ordVals : List (List ℚ)) (m : Nat) : List (List (ℚ × ℚ)) :=
  match ordVals with
  | [] => []
  | v0 :: rest =>
    let b := baselines (colsOf (v0 :: rest) m)
    let s0 := List.zipWith (fun y v => (y, y + v)) b v0
    s0 :: stackNoneGo s0 rest

/-- The stacked series of the stream graph (lines 236–242), listed in stack
order (the code stores each band sequence back onto the key-ordered series
objects; the collection of bands is the same). -/
def streamSeries (parsed : List ParsedGDP) (sel : List String) :
    List (List (ℚ × ℚ)) :=
  let vals := streamValues parsed sel
  let ord := stackOrderInsideOut vals
  stackWiggle (ord.map (fun i => vals.getD i [])) (stackYears parsed).length

/-- The bands of every stacked series at year row `j`. -/
def bandsAt (series : List (List (ℚ × ℚ))) (j : Nat) : List (ℚ × ℚ) :=
  series.map (fun row => row.getD j (0, 0))

/-- All lower/upper bounds of the stacked series (`series.flat(2)`, used at
lines 249–251 for the global y-domain). -/
def flatBounds (series : List (List (ℚ × ℚ))) : List ℚ :=
  series.flatMap (fun row => row.flatMap (fun b => [b.1, b.2]))

/-! ## GDP stream graph: layout, colors, legend, view -/

/-- The geometry the stream-graph effect derives: the stack keys (line 237),
the stacked series, the color domain (line 254) and the legend entries
(lines 308/317–319) — all four driven by the same country universe. -/
structure StreamGeometry where
  keys : List String
  series : List (List (ℚ × ℚ))
  colorDomain : List String
  legend : List String

/-- The stream-graph layout step (lines 232–255, 304–324). -/
def streamLayout (parsed : List ParsedGDP) (sel : List String) :
    StreamGeometry :=
  let countries := streamCountries parsed sel
  { keys := countries
    series := streamSeries parsed sel
    colorDomain := countries
    legend := countries }

/-- The `d3.schemeCategory10` palette (line chart, line 63). -/
def schemeCategory10 : List String :=
  ["#1f77b4", "#ff7f0e", "#2ca02c", "#d62728", "#9467bd",
   "#8c564b", "#e377c2", "#7f7f7f", "#bcbd22", "#17becf"]

/-- The `d3.schemeTableau10` palette (stream graph, line 255). -/
def schemeTableau10 : List String :=
  ["#4e79a7", "#f28e2c", "#e15759", "#76b7b2", "#59a14f",
   "#edc949", "#af7aa1", "#ff9da7", "#9c755f", "#bab0ab"]

/-- A `d3.scaleOrdinal` over the given range: the effective domain keeps the
first occurrence of each domain value; a key's color is the range entry at
its domain index modulo the range length.  A key absent from the domain is
appended at the end (`List.indexOf` returns the length), exactly d3's
implicit-domain growth. -/
def ordinalScale (range : List String) (domain : List String) (k : String) :
    String :=
  let dom := firstSeenAux [] domain
  range.getD (dom.indexOf k % range.length) ""

/-- One layout/render invocation's color assignment for an ordered category
list: every category paired with its color. -/
def assignedColors (range : List String) (cats : List String) :
    List (String × String) :=
  cats.map (fun k => (k, ordinalScale range cats k))

/-- The sequence of `color(...)` calls of one line-chart draw (strokes in
Gold-ascending draw order, line 84, then legend dots over first-seen unique
names, line 129): this call sequence builds the implicit domain of the fresh
`d3.scaleOrdinal(d3.schemeCategory10)` of line 63. -/
def lineChartColorCalls (data : List SeriesPoint) : List String :=
  (data.mergeSort (fun a b => decide (a.Gold ≤ b.Gold))).map (fun d => d.name)
    ++ firstSeenAux [] (data.map (fun d => d.name))

/-- The color a country receives in one line-chart draw. -/
def lineChartColorOf (data : List SeriesPoint) (k : String) : String :=
  ordinalScale schemeCategory10 (lineChartColorCalls data) k

/-- The colors of the stream graph (lines 253–255): ordinal scale with
explicit domain `countries` and range `schemeTableau10`. -/
def streamColors (parsed : List ParsedGDP) (sel : List String) :
    List (String × String) :=
  assignedColors schemeTableau10 (streamCountries parsed sel)

/-- One option of the `react-select` multi-select (line 345). -/
structure SelectOption where
  value : String
  label : String
deriving DecidableEq, Repr

/-- The stream graph's multi-select `onChange` handler (lines 346–352): when
any chosen option is the `All` option the committed selection becomes empty,
otherwise it becomes the chosen option values. -/
def handleStreamSelect (selected : List SelectOption) : List String :=
  if selected.any (fun o => o.value == "All") then []
  else selected.map (fun o => o.value)

/-- The SVG drawn by the stream-graph effect (lines 263–324): the areas bound
to the stacked series (one path per country key), the two axes, and the
legend over the country universe. -/
def streamSvgContent (parsed : List ParsedGDP) (sel : List String) :
    ChartSvg :=
  { paths := streamCountries parsed sel
    axes := ["y", "x"]
    legend := streamCountries parsed sel }

/-- The `GDPStreamGraph` component body (lines 328–389): loading and error
checks first, otherwise the page with the drawn chart. -/
def streamChartView (q : QueryResult (List GDPRecord)) (sel : List String) :
    View :=
  if q.isLoading then .message "Loading..."
  else if q.isError then .message "Error loading data."
  else .chartPage (some (streamSvgContent (gdpParse (q.data.getD [])) sel))

/-! ## Helper lemmas -/

theorem firstSeenAux_sublist {α : Type} [DecidableEq α] (seen : List α)
    (l : List α) : (firstSeenAux seen l).Sublist l := by
  induction l generalizing seen with
  | nil => simp [firstSeenAux]
  | cons c rest ih =>
    simp only [firstSeenAux]
    by_cases hc : c ∈ seen
    · rw [if_pos hc]
      exact (ih seen).trans (List.sublist_cons_self c rest)
    · rw [if_neg hc]
      exact (ih (c :: seen)).cons₂ c

theorem firstSeenAux_not_mem_seen {α : Type} [DecidableEq α] (seen l : List α)
    (x : α) (hx : x ∈ firstSeenAux seen l) : x ∉ seen := by
  induction l generalizing seen with
  | nil => simp [firstSeenAux] at hx
  | cons c rest ih =>
    simp only [firstSeenAux] at hx
    by_cases hc : c ∈ seen
    · rw [if_pos hc] at hx
      exact ih seen hx
    · rw [if_neg hc] at hx
      rcases List.mem_cons.mp hx with rfl | hx2
      · exact hc
      · intro hxs
        exact ih (c :: seen) hx2 (List.mem_cons_of_mem c hxs)

theorem firstSeenAux_nodup {α : Type} [DecidableEq α] (seen l : List α) :
    (firstSeenAux seen l).Nodup := by
  induction l generalizing seen with
  | nil => simp [firstSeenAux]
  | cons c rest ih =>
    simp only [firstSeenAux]
    by_cases hc : c ∈ seen
    · rw [if_pos hc]; exact ih seen
    · rw [if_neg hc]
      refine List.nodup_cons.mpr ⟨?_, ih (c :: seen)⟩
      intro hmem
      exact firstSeenAux_not_mem_seen (c :: seen) rest c hmem
        (List.mem_cons_self c seen)

theorem transform_map_name (records : List MedalRecord) (y : Int)
    (applied : List String) :
    (transform records y applied).map (fun p => p.name)
      = (filteredSubset records y applied).map (fun d => d.Country) := by
  simp [transform, List.map_map]

theorem transform_empty_countries (records : List MedalRecord) (y : Int) :
    transform records y [] = transformNoCountryFilter records y := rfl

theorem lineChartUpdate_congr (recs : Option (List MedalRecord))
    (s₁ s₂ : ChartState) (hy : s₁.selectedYear = s₂.selectedYear)
    (ha : s₁.appliedCountries = s₂.appliedCountries) :
    lineChartUpdate recs s₁ = lineChartUpdate recs s₂ := by
  cases recs <;> simp [lineChartUpdate, hy, ha]

theorem foldl_editStaged_fields (s : ChartState) (css : List (List String)) :
    (css.foldl editStaged s).appliedCountries = s.appliedCountries
      ∧ (css.foldl editStaged s).selectedYear = s.selectedYear := by
  induction css generalizing s with
  | nil => exact ⟨rfl, rfl⟩
  | cons cs rest ih => exact ih (editStaged s cs)

/-! ## Claim theorems -/

/-- C3 (amended): provided each country appears in at most one record of the
filtered (year + country) subset, the line-chart transform produces exactly
one `SeriesPoint` per distinct country of that subset — the output names are
duplicate-free, a country has a point iff it occurs in the subset, and every
point carries the Gold/Silver/Bronze values of a record of that country. -/
theorem transform_one_point_per_country (records : List MedalRecord)
    (selectedYear : Int) (appliedCountries : List String)
    (hnd : ((filteredSubset records selectedYear appliedCountries).map
      (fun d => d.Country)).Nodup) :
    ((transform records selectedYear appliedCountries).map
      (fun p => p.name)).Nodup
    ∧ (∀ c, (∃ p ∈ transform records selectedYear appliedCountries,
        p.name = c)
        ↔ c ∈ (filteredSubset records selectedYear appliedCountries).map
            (fun d => d.Country))
    ∧ ∀ p ∈ transform records selectedYear appliedCountries,
        ∃ d ∈ filteredSubset records selectedYear appliedCountries,
          d.Country = p.name ∧ p.Gold = d.Gold ∧ p.Silver = d.Silver
            ∧ p.Bronze = d.Bronze := by
  refine ⟨?_, ?_, ?_⟩
  · rw [transform_map_name]
    exact hnd
  · intro c
    rw [← transform_map_name]
    constructor
    · rintro ⟨p, hp, rfl⟩
      exact List.mem_map_of_mem _ hp
    · intro hc
      rcases List.mem_map.mp hc with ⟨p, hp, rfl⟩
      exact ⟨p, hp, rfl⟩
  · intro p hp
    rcases List.mem_map.mp hp with ⟨d, hd, rfl⟩
    exact ⟨d, hd, rfl, rfl, rfl, rfl⟩

/-- Witness for `transform_one_point_per_country` at the spec's scenario
input (two countries, year 2021, empty selection). -/
theorem transform_one_point_per_country_witness :
    ((((filteredSubset
        [(⟨2021, "USA", 39, 41, 33⟩ : MedalRecord),
         ⟨2021, "CHN", 38, 32, 18⟩] 2021 []).map
        (fun d => d.Country)).Nodup))
    ∧ (((transform
        [(⟨2021, "USA", 39, 41, 33⟩ : MedalRecord),
         ⟨2021, "CHN", 38, 32, 18⟩] 2021 []).map
        (fun p => p.name)).Nodup
      ∧ (∀ c, (∃ p ∈ transform
          [(⟨2021, "USA", 39, 41, 33⟩ : MedalRecord),
           ⟨2021, "CHN", 38, 32, 18⟩] 2021 [], p.name = c)
          ↔ c ∈ (filteredSubset
              [(⟨2021, "USA", 39, 41, 33⟩ : MedalRecord),
               ⟨2021, "CHN", 38, 32, 18⟩] 2021 []).map
              (fun d => d.Country))
      ∧ ∀ p ∈ transform
          [(⟨2021, "USA", 39, 41, 33⟩ : MedalRecord),
           ⟨2021, "CHN", 38, 32, 18⟩] 2021 [],
          ∃ d ∈ filteredSubset
            [(⟨2021, "USA", 39, 41, 33⟩ : MedalRecord),
             ⟨2021, "CHN", 38, 32, 18⟩] 2021 [],
            d.Country = p.name ∧ p.Gold = d.Gold ∧ p.Silver = d.Silver
              ∧ p.Bronze = d.Bronze) :=
  ⟨by decide, transform_one_point_per_country _ 2021 [] (by decide)⟩

/-- Counterexample to C3 as stated: on a record set holding two records of
the same country in the same year, the transform emits two `SeriesPoint`s
named `USA` — not exactly one per distinct country and not duplicate-free. -/
theorem transform_duplicate_country_counterexample :
    (transform [(⟨2021, "USA", 39, 41, 33⟩ : MedalRecord),
        ⟨2021, "USA", 1, 2, 3⟩] 2021 []).map (fun p => p.name)
      = ["USA", "USA"]
    ∧ ¬ ((transform [(⟨2021, "USA", 39, 41, 33⟩ : MedalRecord),
        ⟨2021, "USA", 1, 2, 3⟩] 2021 []).map (fun p => p.name)).Nodup := by
  constructor
  · decide
  · decide

/-- C4: running the line-chart transform with an empty applied country set
yields exactly the result of the pipeline with the country-filter stage
omitted — the empty selection means "no filter". -/
theorem transform_empty_selection_eq_unfiltered (records : List MedalRecord)
    (y : Int) :
    transform records y [] = transformNoCountryFilter records y :=
  transform_empty_countries records y

/-- C5: the year selector's change handler resets the applied country
selection to the empty set, and the next pipeline run for the new (non-falsy)
year therefore ignores any previously applied country filter: it equals the
unfiltered-by-country pipeline for that year. -/
theorem changeYear_resets_applied (s : ChartState) (d : List MedalRecord)
    (y : Int) (hy : y ≠ 0) :
    (changeYear s y).appliedCountries = []
    ∧ lineChartUpdate (some d) (changeYear s y)
        = some (transformNoCountryFilter d y) := by
  refine ⟨rfl, ?_⟩
  simp [lineChartUpdate, changeYear, hy]
  exact transform_empty_countries d y

/-- Witness for `changeYear_resets_applied`: changing the year from 2021 to
2016 with an applied country filter in place. -/
theorem changeYear_resets_applied_witness :
    (2016 : Int) ≠ 0
    ∧ ((changeYear ⟨some 2021, ["USA"], ["USA"]⟩ 2016).appliedCountries = []
      ∧ lineChartUpdate (some [(⟨2016, "CHN", 26, 18, 26⟩ : MedalRecord)])
          (changeYear ⟨some 2021, ["USA"], ["USA"]⟩ 2016)
        = some (transformNoCountryFilter
            [(⟨2016, "CHN", 26, 18, 26⟩ : MedalRecord)] 2016)) :=
  ⟨by decide, changeYear_resets_applied _ _ 2016 (by decide)⟩

/-- C6: any sequence of edits to the staged country multi-selection leaves
the applied selection and the selected year unchanged, and the transform
effect's output is identical to what it was before the edits — the pipeline
is not re-run by staged edits; the applied set changes only through the
explicit Apply handler, which commits the staged selection. -/
theorem staged_edits_never_rerun_pipeline (s : ChartState)
    (css : List (List String)) (recs : Option (List MedalRecord)) :
    (css.foldl editStaged s).appliedCountries = s.appliedCountries
    ∧ (css.foldl editStaged s).selectedYear = s.selectedYear
    ∧ lineChartUpdate recs (css.foldl editStaged s) = lineChartUpdate recs s
    ∧ (applyStaged (css.foldl editStaged s)).appliedCountries
        = (css.foldl editStaged s).selectedCountries := by
  obtain ⟨ha, hy⟩ := foldl_editStaged_fields s css
  exact ⟨ha, hy, lineChartUpdate_congr recs _ _ hy ha, rfl⟩

/-- C1 (amended): the Empty-Result case raises no error, but the draw effect
returns early without touching the surface, so contents of a previous render
(stale paths included) remain; the clear-before-draw full-replace semantics —
the drawn result is independent of the prior surface contents — holds only
when both the filtered data and the key list are non-empty. -/
theorem emptyResult_render_keeps_stale (keys : List String)
    (d : List SeriesPoint) (s s' : Option ChartSvg) (hd : d ≠ [])
    (hk : keys ≠ []) :
    renderLineChartEffect [] keys s = s
    ∧ renderLineChartEffect d keys s = renderLineChartEffect d keys s'
    ∧ renderLineChartEffect d keys s = some (drawLineChart d keys) := by
  have h1 : ¬ d.length = 0 := fun h => hd (List.length_eq_zero.mp h)
  have h2 : ¬ keys.length = 0 := fun h => hk (List.length_eq_zero.mp h)
  refine ⟨by simp [renderLineChartEffect], ?_, ?_⟩ <;>
    simp [renderLineChartEffect, h1, h2]

/-- Witness for `emptyResult_render_keeps_stale` on a one-point data set and
two distinct prior surfaces. -/
theorem emptyResult_render_keeps_stale_witness :
    ([(⟨"USA", 39, 41, 33⟩ : SeriesPoint)] ≠ ([] : List SeriesPoint))
    ∧ (uniqueKeys ≠ [])
    ∧ (renderLineChartEffect [] uniqueKeys
          (some ⟨["USA"], uniqueKeys, ["USA"]⟩)
        = some ⟨["USA"], uniqueKeys, ["USA"]⟩
      ∧ renderLineChartEffect [(⟨"USA", 39, 41, 33⟩ : SeriesPoint)] uniqueKeys
          (some ⟨["USA"], uniqueKeys, ["USA"]⟩)
        = renderLineChartEffect [(⟨"USA", 39, 41, 33⟩ : SeriesPoint)]
            uniqueKeys none
      ∧ renderLineChartEffect [(⟨"USA", 39, 41, 33⟩ : SeriesPoint)] uniqueKeys
          (some ⟨["USA"], uniqueKeys, ["USA"]⟩)
        = some (drawLineChart [(⟨"USA", 39, 41, 33⟩ : SeriesPoint)]
            uniqueKeys)) :=
  ⟨by decide, by decide,
    emptyResult_render_keeps_stale uniqueKeys _ _ none (by decide) (by decide)⟩

/-- Counterexample to C1 as stated: after a render of one `USA` series point,
an Empty-Result run of the draw effect leaves the previous chart — the `USA`
path included — on the surface instead of an empty chart frame; the effect
never clears before its empty-input early return. -/
theorem emptyResult_render_counterexample :
    renderLineChartEffect [(⟨"USA", 39, 41, 33⟩ : SeriesPoint)] uniqueKeys
        none
      = some ⟨["USA"], uniqueKeys, ["USA"]⟩
    ∧ renderLineChartEffect [] uniqueKeys
        (some ⟨["USA"], uniqueKeys, ["USA"]⟩)
      = some ⟨["USA"], uniqueKeys, ["USA"]⟩
    ∧ (some (⟨["USA"], uniqueKeys, ["USA"]⟩ : ChartSvg)).map
        (fun svg => svg.paths) ≠ some [] := by
  refine ⟨?_, by simp [renderLineChartEffect], by decide⟩
  simp [renderLineChartEffect, drawLineChart, List.mergeSort, firstSeenAux,
    uniqueKeys]

/-- C9: whenever the query result reports `isLoading` or `isError`, both
components replace their entire output with a short text message — the
loading placeholder when loading, the error message otherwise — the view
carries no chart content (no axes, paths or legend), and the view does not
depend on the fetched data at all, so no pipeline stage contributes to it. -/
theorem loading_error_replaces_chart (q : QueryResult (List MedalRecord))
    (q2 : QueryResult (List GDPRecord)) (s : ChartState) (sel : List String)
    (h : q.isLoading = true ∨ q.isError = true)
    (h2 : q2.isLoading = true ∨ q2.isError = true) :
    (∃ m, medalChartView q s = .message m)
    ∧ (medalChartView q s).hasChartContent = false
    ∧ (∀ d, medalChartView { q with data := d } s = medalChartView q s)
    ∧ (q.isLoading = true → medalChartView q s = .message "Loading...")
    ∧ (q.isLoading = false
        → medalChartView q s = .message "Failed to load data.")
    ∧ (∃ m, streamChartView q2 sel = .message m)
    ∧ (streamChartView q2 sel).hasChartContent = false
    ∧ (∀ d, streamChartView { q2 with data := d } sel
        = streamChartView q2 sel) := by
  refine ⟨?_, ?_, ?_, ?_, ?_, ?_, ?_, ?_⟩
  · rcases h with h | h
    · exact ⟨"Loading...", by simp [medalChartView, h]⟩
    · by_cases hl : q.isLoading
      · exact ⟨"Loading...", by simp [medalChartView, hl]⟩
      · exact ⟨"Failed to load data.", by simp [medalChartView, hl, h]⟩
  · rcases h with h | h
    · simp [medalChartView, h, View.hasChartContent]
    · by_cases hl : q.isLoading <;>
        simp [medalChartView, hl, h, View.hasChartContent]
  · intro d
    rcases h with h | h
    · simp [medalChartView, h]
    · by_cases hl : q.isLoading <;> simp [medalChartView, hl, h]
  · intro hl
    simp [medalChartView, hl]
  · intro hl
    rcases h with h | h
    · rw [hl] at h; cases h
    · simp [medalChartView, hl, h]
  · rcases h2 with h | h
    · exact ⟨"Loading...", by simp [streamChartView, h]⟩
    · by_cases hl : q2.isLoading
      · exact ⟨"Loading...", by simp [streamChartView, hl]⟩
      · exact ⟨"Error loading data.", by simp [streamChartView, hl, h]⟩
  · rcases h2 with h | h
    · simp [streamChartView, h, View.hasChartContent]
    · by_cases hl : q2.isLoading <;>
        simp [streamChartView, hl, h, View.hasChartContent]
  · intro d
    rcases h2 with h | h
    · simp [streamChartView, h]
    · by_cases hl : q2.isLoading <;> simp [streamChartView, hl, h]

/-- Witness for `loading_error_replaces_chart`: a loading medal query and an
errored GDP query. -/
theorem loading_error_replaces_chart_witness :
    ((⟨none, true, false⟩ : QueryResult (List MedalRecord)).isLoading = true
      ∨ (⟨none, true, false⟩ : QueryResult (List MedalRecord)).isError = true)
    ∧ ((⟨none, false, true⟩ : QueryResult (List GDPRecord)).isLoading = true
      ∨ (⟨none, false, true⟩ : QueryResult (List GDPRecord)).isError = true)
    ∧ ((∃ m, medalChartView ⟨none, true, false⟩ ⟨none, [], []⟩ = .message m)
      ∧ (medalChartView ⟨none, true, false⟩
          ⟨none, [], []⟩).hasChartContent = false
      ∧ (∀ d, medalChartView ⟨d, true, false⟩ ⟨none, [], []⟩
          = medalChartView ⟨none, true, false⟩ ⟨none, [], []⟩)
      ∧ ((⟨none, true, false⟩ : QueryResult (List MedalRecord)).isLoading
            = true
          → medalChartView ⟨none, true, false⟩ ⟨none, [], []⟩
            = .message "Loading...")
      ∧ ((⟨none, true, false⟩ : QueryResult (List MedalRecord)).isLoading
            = false
          → medalChartView ⟨none, true, false⟩ ⟨none, [], []⟩
            = .message "Failed to load data.")
      ∧ (∃ m, streamChartView ⟨none, false, true⟩ [] = .message m)
      ∧ (streamChartView ⟨none, false, true⟩ []).hasChartContent = false
      ∧ (∀ d, streamChartView ⟨d, false, true⟩ []
          = streamChartView ⟨none, false, true⟩ [])) :=
  ⟨Or.inl rfl, Or.inr rfl,
    loading_error_replaces_chart ⟨none, true, false⟩ ⟨none, false, true⟩
      ⟨none, [], []⟩ [] (Or.inl rfl) (Or.inr rfl)⟩

/-- C10: whenever the chosen options of the stream graph's multi-select
include the `All` option, the committed selection becomes empty, and the next
render's country universe is therefore the first-10-distinct-countries
default (at most 10 countries), not the full country set of the dataset. -/
theorem allOption_resets_selection (selected : List SelectOption)
    (parsed : List ParsedGDP)
    (h : "All" ∈ selected.map (fun o => o.value)) :
    handleStreamSelect selected = []
    ∧ streamCountries parsed (handleStreamSelect selected)
        = (firstSeenAux [] (parsed.map (fun d => d.country))).take 10
    ∧ (streamCountries parsed (handleStreamSelect selected)).length ≤ 10 := by
  have hany : selected.any (fun o => o.value == "All") = true := by
    rw [List.any_eq_true]
    rcases List.mem_map.mp h with ⟨o, ho, hv⟩
    exact ⟨o, ho, by simp [hv]⟩
  have hempty : handleStreamSelect selected = [] := by
    simp [handleStreamSelect, hany]
  refine ⟨hempty, ?_, ?_⟩
  · rw [hempty]; simp [streamCountries]
  · rw [hempty]
    simp [streamCountries]

/-- Witness for `allOption_resets_selection`: the `All` option chosen
together with a country, on a two-country feed. -/
theorem allOption_resets_selection_witness :
    "All" ∈ ([(⟨"All", "All Countries"⟩ : SelectOption),
        ⟨"USA", "USA"⟩].map (fun o => o.value))
    ∧ (handleStreamSelect [(⟨"All", "All Countries"⟩ : SelectOption),
          ⟨"USA", "USA"⟩] = []
      ∧ streamCountries [(⟨2000, "USA", 1⟩ : ParsedGDP), ⟨2000, "CHN", 2⟩]
          (handleStreamSelect [(⟨"All", "All Countries"⟩ : SelectOption),
            ⟨"USA", "USA"⟩])
        = (firstSeenAux []
            ([(⟨2000, "USA", 1⟩ : ParsedGDP), ⟨2000, "CHN", 2⟩].map
              (fun d => d.country))).take 10
      ∧ (streamCountries [(⟨2000, "USA", 1⟩ : ParsedGDP), ⟨2000, "CHN", 2⟩]
          (handleStreamSelect [(⟨"All", "All Countries"⟩ : SelectOption),
            ⟨"USA", "USA"⟩])).length ≤ 10) :=
  ⟨by decide, allOption_resets_selection _ _ (by decide)⟩

/-- C8: color assignment is a pure function of the ordered category list —
two separate invocations on equal ordered category lists assign identical
colors to every category (each scale is built afresh per render, with no
state shared between invocations) — and each category's color is the
fixed ordered palette entry at its first-seen index modulo the palette
length, both for the stream graph's explicit domain and for the line chart's
call-order-built implicit domain. -/
theorem color_assignment_deterministic (range cats₁ cats₂ : List String)
    (h : cats₁ = cats₂) :
    assignedColors range cats₁ = assignedColors range cats₂
    ∧ (∀ k, ordinalScale range cats₁ k = ordinalScale range cats₂ k)
    ∧ (∀ k, ordinalScale range cats₁ k
        = range.getD ((firstSeenAux [] cats₁).indexOf k % range.length) "")
    ∧ (∀ parsed sel, streamColors parsed sel
        = assignedColors schemeTableau10 (streamCountries parsed sel))
    ∧ (∀ data k, lineChartColorOf data k
        = ordinalScale schemeCategory10 (lineChartColorCalls data) k) := by
  subst h
  exact ⟨rfl, fun _ => rfl, fun _ => rfl, fun _ _ => rfl, fun _ _ => rfl⟩

/-- Witness for `color_assignment_deterministic` on a concrete two-category
list and the Tableau palette. -/
theorem color_assignment_deterministic_witness :
    (["USA", "CHN"] = ["USA", "CHN"])
    ∧ (assignedColors schemeTableau10 ["USA", "CHN"]
        = assignedColors schemeTableau10 ["USA", "CHN"]
      ∧ (∀ k, ordinalScale schemeTableau10 ["USA", "CHN"] k
          = ordinalScale schemeTableau10 ["USA", "CHN"] k)
      ∧ (∀ k, ordinalScale schemeTableau10 ["USA", "CHN"] k
          = schemeTableau10.getD
              ((firstSeenAux [] ["USA", "CHN"]).indexOf k
                % schemeTableau10.length) "")
      ∧ (∀ parsed sel, streamColors parsed sel
          = assignedColors schemeTableau10 (streamCountries parsed sel))
      ∧ (∀ data k, lineChartColorOf data k
          = ordinalScale schemeCategory10 (lineChartColorCalls data) k)) :=
  ⟨rfl, color_assignment_deterministic schemeTableau10 _ _ rfl⟩

/-- C7: the stream graph's stacking keys, color domain and legend are all the
same country universe: the selected country set when it is non-empty, and
otherwise the first 10 distinct countries of the raw feed in first-seen
order — a duplicate-free order-preserving sublist of the feed's country
column of length at most 10, not a ranking by magnitude. -/
theorem stream_universe_first_seen (parsed : List ParsedGDP)
    (sel : List String) :
    (streamLayout parsed sel).keys
      = (if sel = []
          then (firstSeenAux [] (parsed.map (fun d => d.country))).take 10
          else sel)
    ∧ (streamLayout parsed sel).colorDomain = (streamLayout parsed sel).keys
    ∧ (streamLayout parsed sel).legend = (streamLayout parsed sel).keys
    ∧ (streamLayout parsed []).keys.Nodup
    ∧ (streamLayout parsed []).keys.Sublist (parsed.map (fun d => d.country))
    ∧ (streamLayout parsed []).keys.length ≤ 10 := by
  refine ⟨?_, rfl, rfl, ?_, ?_, ?_⟩
  · cases sel <;> simp [streamLayout, streamCountries]
  · exact ((List.take_sublist 10 _).nodup (firstSeenAux_nodup [] _))
  · exact (List.take_sublist 10 _).trans (firstSeenAux_sublist [] _)
  · simp [streamLayout, streamCountries]

/-! ## Stacking lemmas for the partition property -/

theorem insideOutGo_mem (sums : List ℚ) (l : List Nat) :
    ∀ (t b : ℚ) (tops bottoms : List Nat) (x : Nat),
      x ∈ insideOutGo sums l t b tops bottoms
      → x ∈ l ∨ x ∈ tops ∨ x ∈ bottoms := by
  induction l with
  | nil =>
    intro t b tops bottoms x hx
    simp only [insideOutGo, List.mem_append, List.mem_reverse] at hx
    rcases hx with h | h
    · exact Or.inr (Or.inr h)
    · exact Or.inr (Or.inl h)
  | cons j rest ih =>
    intro t b tops bottoms x hx
    simp only [insideOutGo] at hx
    by_cases hc : t < b
    · rw [if_pos hc] at hx
      rcases ih _ _ _ _ _ hx with h | h | h
      · exact Or.inl (List.mem_cons_of_mem j h)
      · rcases List.mem_append.mp h with h2 | h2
        · exact Or.inr (Or.inl h2)
        · rw [List.mem_singleton] at h2
          exact Or.inl (h2 ▸ List.mem_cons_self j rest)
      · exact Or.inr (Or.inr h)
    · rw [if_neg hc] at hx
      rcases ih _ _ _ _ _ hx with h | h | h
      · exact Or.inl (List.mem_cons_of_mem j h)
      · exact Or.inr (Or.inl h)
      · rcases List.mem_append.mp h with h2 | h2
        · exact Or.inr (Or.inr h2)
        · rw [List.mem_singleton] at h2
          exact Or.inl (h2 ▸ List.mem_cons_self j rest)

theorem stackOrderInsideOut_lt (vals : List (List ℚ)) (x : Nat)
    (hx : x ∈ stackOrderInsideOut vals) : x < vals.length := by
  simp only [stackOrderInsideOut] at hx
  rcases insideOutGo_mem _ _ _ _ _ _ _ hx with h | h | h
  · rw [List.mem_mergeSort] at h
    exact List.mem_range.mp h
  · cases h
  · cases h

theorem streamValues_length (parsed : List ParsedGDP) (sel : List String) :
    ∀ r ∈ streamValues parsed sel, r.length = (stackYears parsed).length := by
  intro r hr
  rcases List.mem_map.mp hr with ⟨c, _, rfl⟩
  simp

theorem lookupVal_nonneg (parsed : List ParsedGDP)
    (hval : ∀ r ∈ parsed, 0 ≤ r.gdpPerCapita) (y : Int) (c : String) :
    0 ≤ lookupVal parsed y c := by
  unfold lookupVal
  cases hf : parsed.find? (fun r => r.year == y && r.country == c) with
  | none => exact le_refl 0
  | some r => exact hval r (List.mem_of_find?_eq_some hf)

theorem streamValues_nonneg (parsed : List ParsedGDP) (sel : List String)
    (hval : ∀ r ∈ parsed, 0 ≤ r.gdpPerCapita) :
    ∀ r ∈ streamValues parsed sel, ∀ v ∈ r, 0 ≤ v := by
  intro r hr v hv
  rcases List.mem_map.mp hr with ⟨c, _, rfl⟩
  rcases List.mem_map.mp hv with ⟨y, _, rfl⟩
  exact lookupVal_nonneg parsed hval y c

theorem ordRows_length (vals : List (List ℚ)) (m : Nat)
    (hlen : ∀ r ∈ vals, r.length = m) :
    ∀ r ∈ (stackOrderInsideOut vals).map (fun i => vals.getD i []),
      r.length = m := by
  intro r hr
  rcases List.mem_map.mp hr with ⟨i, hi, rfl⟩
  have hlt := stackOrderInsideOut_lt vals i hi
  rw [List.getD_eq_getElem _ _ hlt]
  exact hlen _ (List.getElem_mem hlt)

theorem ordRows_nonneg (vals : List (List ℚ))
    (hnn : ∀ r ∈ vals, ∀ v ∈ r, 0 ≤ v) :
    ∀ r ∈ (stackOrderInsideOut vals).map (fun i => vals.getD i []),
      ∀ v ∈ r, 0 ≤ v := by
  intro r hr
  rcases List.mem_map.mp hr with ⟨i, hi, rfl⟩
  by_cases hlt : i < vals.length
  · rw [List.getD_eq_getElem _ _ hlt]
    exact hnn _ (List.getElem_mem hlt)
  · rw [List.getD_eq_default _ _ (le_of_not_lt hlt)]
    intro v hv
    cases hv

theorem zip_band_lower (prev : List (ℚ × ℚ)) (row : List ℚ) (j : Nat)
    (hlen : row.length = prev.length) :
    ((List.zipWith (fun p v => (p.2, p.2 + v)) prev row).getD j (0, 0)).1
      = (prev.getD j (0, 0)).2 := by
  by_cases hj : j < prev.length
  · have hz : j < (List.zipWith (fun p v => (p.2, p.2 + v)) prev row).length := by
      rw [List.length_zipWith, hlen, min_self]
      exact hj
    rw [List.getD_eq_getElem _ _ hz, List.getD_eq_getElem _ _ hj,
      List.getElem_zipWith]
  · have h1 : prev.length ≤ j := le_of_not_lt hj
    have h2 : (List.zipWith (fun p v => (p.2, p.2 + v)) prev row).length ≤ j := by
      rw [List.length_zipWith, hlen, min_self]
      exact h1
    rw [List.getD_eq_default _ _ h2, List.getD_eq_default _ _ h1]

theorem zip_band_nonneg (prev : List (ℚ × ℚ)) (row : List ℚ) (j : Nat)
    (hrow : ∀ v ∈ row, 0 ≤ v) :
    ((List.zipWith (fun p v => (p.2, p.2 + v)) prev row).getD j (0, 0)).1
      ≤ ((List.zipWith (fun p v => (p.2, p.2 + v)) prev row).getD j (0, 0)).2 := by
  by_cases hj : j < (List.zipWith (fun p v => (p.2, p.2 + v)) prev row).length
  · rw [List.getD_eq_getElem _ _ hj, List.getElem_zipWith]
    have hjr : j < row.length := by
      rw [List.length_zipWith] at hj
      exact lt_of_lt_of_le hj (min_le_right _ _)
    have := hrow _ (List.getElem_mem hjr)
    simpa using this
  · rw [List.getD_eq_default _ _ (le_of_not_lt hj)]

theorem zip_base_nonneg (b : List ℚ) (row : List ℚ) (j : Nat)
    (hrow : ∀ v ∈ row, 0 ≤ v) :
    ((List.zipWith (fun y v => (y, y + v)) b row).getD j (0, 0)).1
      ≤ ((List.zipWith (fun y v => (y, y + v)) b row).getD j (0, 0)).2 := by
  by_cases hj : j < (List.zipWith (fun y v => (y, y + v)) b row).length
  · rw [List.getD_eq_getElem _ _ hj, List.getElem_zipWith]
    have hjr : j < row.length := by
      rw [List.length_zipWith] at hj
      exact lt_of_lt_of_le hj (min_le_right _ _)
    have := hrow _ (List.getElem_mem hjr)
    simpa using this
  · rw [List.getD_eq_default _ _ (le_of_not_lt hj)]

theorem stackNoneGo_chain (j : Nat) (rows : List (List ℚ)) :
    ∀ (prev : List (ℚ × ℚ)), (∀ r ∈ rows, r.length = prev.length)
      → List.Chain' (fun a b => (b.getD j (0, 0)).1 = (a.getD j (0, 0)).2)
          (prev :: stackNoneGo prev rows) := by
  induction rows with
  | nil =>
    intro prev _
    simp [stackNoneGo]
  | cons row rest ih =>
    intro prev hlen
    simp only [stackNoneGo]
    have hcur : (List.zipWith (fun p v => (p.2, p.2 + v)) prev row).length
        = prev.length := by
      rw [List.length_zipWith, hlen row (List.mem_cons_self _ _), min_self]
    refine List.chain'_cons.mpr ⟨?_, ?_⟩
    · exact zip_band_lower prev row j (hlen row (List.mem_cons_self _ _))
    · apply ih
      intro r hr
      rw [hcur]
      exact hlen r (List.mem_cons_of_mem _ hr)

theorem stackNoneGo_nonneg (j : Nat) (rows : List (List ℚ)) :
    ∀ (prev : List (ℚ × ℚ)), (∀ r ∈ rows, ∀ v ∈ r, 0 ≤ v)
      → ∀ out ∈ stackNoneGo prev rows,
          (out.getD j (0, 0)).1 ≤ (out.getD j (0, 0)).2 := by
  induction rows with
  | nil =>
    intro prev _ out hout
    simp [stackNoneGo] at hout
  | cons row rest ih =>
    intro prev hnn out hout
    simp only [stackNoneGo] at hout
    rcases List.mem_cons.mp hout with rfl | hout2
    · exact zip_band_nonneg prev row j (hnn row (List.mem_cons_self _ _))
    · exact ih _ (fun r hr => hnn r (List.mem_cons_of_mem _ hr)) out hout2

theorem chain_heights_telescope (l : List (ℚ × ℚ))
    (h : List.Chain' (fun a b => b.1 = a.2) l) :
    (l.map (fun b => b.2 - b.1)).sum
      = (l.getLast?.getD (0, 0)).2 - (l.head?.getD (0, 0)).1 := by
  induction l with
  | nil => simp
  | cons a t ih =>
    cases t with
    | nil => simp
    | cons b t2 =>
      rw [List.chain'_cons] at h
      have ht := ih h.2
      simp only [List.map_cons, List.sum_cons] at ht ⊢
      rw [List.getLast?_cons_cons]
      simp only [List.head?_cons, Option.getD_some] at ht ⊢
      rw [ht, h.1]
      ring

theorem baselinesGo_length (cols : List (List ℚ)) :
    ∀ (prevCol : List ℚ) (y : ℚ),
      (baselinesGo prevCol y cols).length = cols.length := by
  induction cols with
  | nil => intro _ _; rfl
  | cons col rest ih =>
    intro prevCol y
    simp only [baselinesGo, List.length_cons]
    rw [ih]

theorem baselines_length (cols : List (List ℚ)) :
    (baselines cols).length = cols.length := by
  cases cols with
  | nil => rfl
  | cons c0 rest =>
    simp only [baselines, List.length_cons]
    rw [baselinesGo_length]

theorem stackWiggle_partition (ordVals : List (List ℚ)) (m : Nat) (j : Nat)
    (hlen : ∀ r ∈ ordVals, r.length = m)
    (hnn : ∀ r ∈ ordVals, ∀ v ∈ r, 0 ≤ v) :
    List.Chain' (fun a b => b.1 = a.2) (bandsAt (stackWiggle ordVals m) j)
    ∧ (∀ band ∈ bandsAt (stackWiggle ordVals m) j, band.1 ≤ band.2)
    ∧ ((bandsAt (stackWiggle ordVals m) j).map (fun b => b.2 - b.1)).sum
        = ((bandsAt (stackWiggle ordVals m) j).getLast?.getD (0, 0)).2
          - ((bandsAt (stackWiggle ordVals m) j).head?.getD (0, 0)).1 := by
  cases ordVals with
  | nil =>
    simp [stackWiggle, bandsAt]
  | cons v0 rest =>
    simp only [stackWiggle]
    have hs0len : (List.zipWith (fun y v => (y, y + v))
        (baselines (colsOf (v0 :: rest) m)) v0).length = m := by
      rw [List.length_zipWith, baselines_length]
      simp only [colsOf, List.length_map, List.length_range]
      rw [hlen v0 (List.mem_cons_self _ _), min_self]
    have hrest : ∀ r ∈ rest, r.length
        = (List.zipWith (fun y v => (y, y + v))
            (baselines (colsOf (v0 :: rest) m)) v0).length := by
      intro r hr
      rw [hs0len]
      exact hlen r (List.mem_cons_of_mem _ hr)
    have hchainS := stackNoneGo_chain j rest _ hrest
    have hchainB : List.Chain' (fun a b => b.1 = a.2)
        (bandsAt (List.zipWith (fun y v => (y, y + v))
            (baselines (colsOf (v0 :: rest) m)) v0
          :: stackNoneGo (List.zipWith (fun y v => (y, y + v))
            (baselines (colsOf (v0 :: rest) m)) v0) rest) j) := by
      unfold bandsAt
      exact (List.chain'_map _).mpr hchainS
    refine ⟨hchainB, ?_, chain_heights_telescope _ hchainB⟩
    intro band hband
    rcases List.mem_map.mp hband with ⟨row, hrow, rfl⟩
    rcases List.mem_cons.mp hrow with rfl | hrow2
    · exact zip_base_nonneg _ v0 j (hnn v0 (List.mem_cons_self _ _))
    · exact stackNoneGo_nonneg j rest _
        (fun r hr => hnn r (List.mem_cons_of_mem _ hr)) row hrow2

/-- C2 (amended): for every stream-graph input with non-negative GDP values
and every year row, the stacked bands are contiguous and non-overlapping —
each band's lower bound equals the previous band's upper bound in stack
order, and every band's lower bound is at most its upper bound — so they
partition the per-year stack extent: the sum of band heights at the year
equals that year's total stack height, the top band's upper bound minus the
bottom band's lower bound.  (They do not partition the global
`[globalMin, globalMax]` interval over all years, which the wiggle baseline
makes year-dependent.) -/
theorem stream_stack_partition (parsed : List ParsedGDP) (sel : List String)
    (j : Nat) (hval : ∀ r ∈ parsed, 0 ≤ r.gdpPerCapita) :
    List.Chain' (fun a b => b.1 = a.2) (bandsAt (streamSeries parsed sel) j)
    ∧ (∀ band ∈ bandsAt (streamSeries parsed sel) j, band.1 ≤ band.2)
    ∧ ((bandsAt (streamSeries parsed sel) j).map (fun b => b.2 - b.1)).sum
        = ((bandsAt (streamSeries parsed sel) j).getLast?.getD (0, 0)).2
          - ((bandsAt (streamSeries parsed sel) j).head?.getD (0, 0)).1 :=
  stackWiggle_partition
    ((stackOrderInsideOut (streamValues parsed sel)).map
      (fun i => (streamValues parsed sel).getD i []))
    (stackYears parsed).length j
    (ordRows_length _ _ (streamValues_length parsed sel))
    (ordRows_nonneg _ (streamValues_nonneg parsed sel hval))

/-- Witness for `stream_stack_partition` on a one-country two-year feed at
the first year row. -/
theorem stream_stack_partition_witness :
    (∀ r ∈ [(⟨2000, "A", 1⟩ : ParsedGDP), ⟨2001, "A", 2⟩],
      0 ≤ r.gdpPerCapita)
    ∧ (List.Chain' (fun a b => b.1 = a.2)
        (bandsAt (streamSeries
          [(⟨2000, "A", 1⟩ : ParsedGDP), ⟨2001, "A", 2⟩] []) 0)
      ∧ (∀ band ∈ bandsAt (streamSeries
          [(⟨2000, "A", 1⟩ : ParsedGDP), ⟨2001, "A", 2⟩] []) 0,
          band.1 ≤ band.2)
      ∧ ((bandsAt (streamSeries
            [(⟨2000, "A", 1⟩ : ParsedGDP), ⟨2001, "A", 2⟩] []) 0).map
            (fun b => b.2 - b.1)).sum
          = ((bandsAt (streamSeries
              [(⟨2000, "A", 1⟩ : ParsedGDP), ⟨2001, "A", 2⟩] [])
              0).getLast?.getD (0, 0)).2
            - ((bandsAt (streamSeries
                [(⟨2000, "A", 1⟩ : ParsedGDP), ⟨2001, "A", 2⟩] [])
                0).head?.getD (0, 0)).1) :=
  ⟨by norm_num, stream_stack_partition _ [] 0 (by norm_num)⟩

/-- Counterexample to C2 as stated: on the one-country feed with values 1
(year 2000) and 2 (year 2001), the wiggle offset gives the bands
`[0, 1]` at year 2000 and `[-1/2, 3/2]` at year 2001; the global minimum
bound over all years is `-1/2`, yet no band at year 2000 contains `-1/2` —
the bands at a year do not partition the global `[globalMin, globalMax]`
interval of the cumulative-offset stack. -/
theorem stream_partition_global_counterexample :
    streamSeries [(⟨2000, "A", 1⟩ : ParsedGDP), ⟨2001, "A", 2⟩] []
      = [[((0 : ℚ), (1 : ℚ)), (-(1/2 : ℚ), (3/2 : ℚ))]]
    ∧ (-(1/2 : ℚ)) ∈ flatBounds
        (streamSeries [(⟨2000, "A", 1⟩ : ParsedGDP), ⟨2001, "A", 2⟩] [])
    ∧ (∀ q ∈ flatBounds
        (streamSeries [(⟨2000, "A", 1⟩ : ParsedGDP), ⟨2001, "A", 2⟩] []),
        -(1/2 : ℚ) ≤ q)
    ∧ (∀ band ∈ bandsAt
        (streamSeries [(⟨2000, "A", 1⟩ : ParsedGDP), ⟨2001, "A", 2⟩] []) 0,
        ¬ (band.1 ≤ -(1/2 : ℚ) ∧ -(1/2 : ℚ) ≤ band.2)) := by
  have hS : streamSeries [(⟨2000, "A", 1⟩ : ParsedGDP), ⟨2001, "A", 2⟩] []
      = [[((0 : ℚ), (1 : ℚ)), (-(1/2 : ℚ), (3/2 : ℚ))]] := by
    norm_num [streamSeries, streamValues, streamCountries, stackYears,
      firstSeenAux, lookupVal, stackOrderInsideOut, peakIdx, peakIdxGo,
      insideOutGo, stackWiggle, colsOf, baselines, baselinesGo, wiggleS2Go,
      stackNoneGo, List.mergeSort, List.find?, beq_eq_decide,
      List.range_succ, List.range_zero]
  refine ⟨hS, ?_, ?_, ?_⟩
  · rw [hS]
    norm_num [flatBounds]
  · rw [hS]
    intro q hq
    norm_num [flatBounds] at hq
    rcases hq with rfl | rfl | rfl | rfl <;> norm_num
  · rw [hS]
    intro band hband
    norm_num [bandsAt] at hband
    rw [hband]
    norm_num

end OlympiQ
